import Mathlib

/-!
# Verification of the Firestore upload/backup server core

A shallow embedding of the core of the `FIRESTORE-UPLOAD-BACKUP-BE` server
(`src/server.js` and the companion bulk-upload script), together with proofs
about it:

* the native-JSON / Firestore-wire value codec
  (`convertToFirestoreFields` / `parseFirestoreValue`),
* the top-level JSON shape normalization and document-id assignment of the
  `upload-collection` handlers,
* the batch partitioning loops (Express handler and the standalone script),
* the commit retry loop (`commitBatchWithRetry`) with its backoff schedule,
* the per-file upload loop of the Hono handler with its failure isolation,
* the service-account gate on `upload-collection`, and
* the staged credential validator (`validateServiceAccountComplete`).

JavaScript numbers are modelled as rationals (`ℚ`): the numeric
operations the codec performs are the `Number.isInteger` test (modelled as
`q.den = 1`) and the integer wire transport, which is a *string* transport
(`value.toString()` on encode, `parseInt` on decode) and is modelled as
such — it is lossless only while `toString` stays in decimal notation
(magnitude below `10^21`) and truncates the exponential notation used
beyond that.  Network effects are modelled by boolean outcome oracles.
-/

namespace FirestoreBE

/-- Native JSON values as produced by `JSON.parse`: `null`, booleans,
numbers (one JS number type; modelled as `ℚ`), strings, arrays and objects
(ordered association lists, as JS objects preserve insertion order). -/
inductive JNative where
  | null : JNative
  | bool (b : Bool) : JNative
  | num (q : ℚ) : JNative
  | str (s : String) : JNative
  | arr (xs : List JNative) : JNative
  | obj (kvs : List (String × JNative)) : JNative

/-! ## The integer string transport

`convertToFirestoreFields` sends an integer-valued number as
`{ integerValue: value.toString() }` and `parseFirestoreValue` reads it
back with `parseInt`.  `Number.prototype.toString` renders an
integer-valued number in decimal notation while its magnitude is below
`10^21` and in exponential notation (`(1e21).toString() = "1e+21"`) from
`10^21` on; `parseInt` consumes an optional sign and then the longest
leading run of digits, so it truncates an exponential rendering at the
`'.'` or `'e'` (`parseInt("1e+21") = 1`).  The model's numbers are exact
rationals, so the digits rendered are the digits of the exact value
(double rounding is not modelled; it never changes decimal-vs-exponential
notation, which is all the `parseInt` composition observes).  `parseInt`
of a digitless string is NaN in JS; the model collapses that to 0 — no
string the encoder emits is digitless. -/

/-- A decimal digit as its character, as rendered by
`Number.prototype.toString`. -/
def digitChar : Nat → Char
  | 0 => '0' | 1 => '1' | 2 => '2' | 3 => '3' | 4 => '4'
  | 5 => '5' | 6 => '6' | 7 => '7' | 8 => '8' | 9 => '9'
  | _ => '*'

/-- The numeric value denoted by a little-endian decimal digit list. -/
def valLE : List Nat → Nat
  | [] => 0
  | d :: ds => d + 10 * valLE ds

/-- Little-endian decimal digits of `n` (fuel-indexed; empty for 0). -/
def natDigitsAux : Nat → Nat → List Nat
  | 0, _ => []
  | fuel + 1, n => if n = 0 then [] else n % 10 :: natDigitsAux fuel (n / 10)

/-- Little-endian decimal digits of `n` (`n` itself is enough fuel). -/
def natDigitsLE (n : Nat) : List Nat := natDigitsAux n n

/-- The decimal rendering of a natural number, as a character list. -/
def natToDecimalList (n : Nat) : List Char :=
  if n = 0 then ['0'] else (natDigitsLE n).reverse.map digitChar

/-- The exponential rendering `d.ddde+NN` of `m` (used from `10^21` on):
the leading digit, the remaining digits with trailing zeros stripped as
the fraction, then `"e+"` and the decimal exponent. -/
def jsExpNotationList (m : Nat) : List Char :=
  let ds := (natDigitsLE m).reverse
  let frac := ((ds.drop 1).reverse.dropWhile (fun d => d = 0)).reverse
  digitChar (ds.headD 0) ::
    ((if frac.isEmpty then [] else '.' :: frac.map digitChar) ++
      ('e' :: '+' :: natToDecimalList (ds.length - 1)))

/-- `value.toString()` for an integer-valued number: an optional minus
sign, then decimal notation below `10^21` and exponential notation from
`10^21` on. -/
def jsIntegerToString (n : ℤ) : String :=
  ⟨(if n < 0 then ['-'] else []) ++
    (if n.natAbs < 10 ^ 21 then natToDecimalList n.natAbs
     else jsExpNotationList n.natAbs)⟩

/-- Folding decimal characters into the number they denote. -/
def digitsVal (cs : List Char) : Nat :=
  cs.foldl (fun a c => a * 10 + (c.toNat - 48)) 0

/-- `parseInt` on a character list: an optional minus sign, then the
longest leading digit run, all further characters discarded. -/
def jsParseIntList : List Char → ℤ
  | [] => 0
  | c :: rest =>
      if c = '-' then -(digitsVal (rest.takeWhile Char.isDigit) : ℤ)
      else (digitsVal ((c :: rest).takeWhile Char.isDigit) : ℤ)

/-- `parseInt(value.integerValue)` as the decoder calls it. -/
def jsParseInt (s : String) : ℤ := jsParseIntList s.data

/-- Firestore wire values: every JS value that can reach
`parseFirestoreValue`.  One constructor per recognized tag
(`stringValue`, `integerValue`, `doubleValue`, `booleanValue`, `nullValue`,
`mapValue`, `arrayValue`); `integerValue` carries the transported string
(`value.toString()` on encode, `parseInt` on decode).
`mapValue`/`arrayValue` carry an `Option` because the source reads
`value.mapValue.fields || {}` and `value.arrayValue.values || []`, i.e.
the nested field may be absent; `mapValueNull`/`arrayValueNull` are the
tags with a `null` payload, on which `value.mapValue.fields` /
`value.arrayValue.values` throws a TypeError.  `untagged` is a non-null
object carrying none of the seven recognized tags (the decoder's
fall-through); `nonObjectInput` is any non-object argument (`null`,
`undefined`, number, string, boolean), on which the very first
`"stringValue" in value` test throws a TypeError. -/
inductive FsValue where
  | nonObjectInput : FsValue
  | stringValue (s : String) : FsValue
  | integerValue (s : String) : FsValue
  | doubleValue (q : ℚ) : FsValue
  | booleanValue (b : Bool) : FsValue
  | nullValue : FsValue
  | mapValueNull : FsValue
  | mapValue (fields : Option (List (String × FsValue))) : FsValue
  | arrayValueNull : FsValue
  | arrayValue (values : Option (List FsValue)) : FsValue
  | untagged : FsValue

mutual
/-- Function `parseFirestoreValue` from `src/server.js` (lines 816–835):
tag-dispatched decoding of a wire value into a native value.  An input
with none of the seven recognized tags falls through to `null`; a
non-object input, or a recognized `mapValue`/`arrayValue` tag whose
payload is `null`, throws (modelled as `.error`), and an error inside a
nested field or element propagates. -/
def parseFirestoreValue : FsValue → Except String JNative
  | .nonObjectInput => .error "TypeError: cannot use the in operator on a non-object"
  | .stringValue s => .ok (.str s)
  | .integerValue s => .ok (.num (jsParseInt s))
  | .doubleValue q => .ok (.num q)
  | .booleanValue b => .ok (.bool b)
  | .nullValue => .ok .null
  | .mapValueNull => .error "TypeError: cannot read fields of null"
  | .mapValue none => .ok (.obj [])
  | .mapValue (some fs) =>
      match parseFields fs with
      | .error e => .error e
      | .ok kvs => .ok (.obj kvs)
  | .arrayValueNull => .error "TypeError: cannot read values of null"
  | .arrayValue none => .ok (.arr [])
  | .arrayValue (some vs) =>
      match parseValues vs with
      | .error e => .error e
      | .ok xs => .ok (.arr xs)
  | .untagged => .ok .null

/-- The `for (const [k, v] of Object.entries(fields))` loop inside the
`mapValue` branch of `parseFirestoreValue` (a thrown TypeError escapes the
loop). -/
def parseFields : List (String × FsValue) → Except String (List (String × JNative))
  | [] => .ok []
  | (k, v) :: rest =>
      match parseFirestoreValue v with
      | .error e => .error e
      | .ok jv =>
          match parseFields rest with
          | .error e => .error e
          | .ok tail => .ok ((k, jv) :: tail)

/-- The `arr.map(parseFirestoreValue)` call inside the `arrayValue` branch
of `parseFirestoreValue` (a thrown TypeError escapes the map). -/
def parseValues : List FsValue → Except String (List JNative)
  | [] => .ok []
  | v :: rest =>
      match parseFirestoreValue v with
      | .error e => .error e
      | .ok jv =>
          match parseValues rest with
          | .error e => .error e
          | .ok tail => .ok (jv :: tail)
end

mutual
/-- The per-value branch body of `convertToFirestoreFields`
(`src/server.js` lines 860–888), checked in the source's precedence order:
`null`, boolean, number (integer tag carrying `value.toString()` iff
`Number.isInteger`, i.e. the value is a mathematical integer), string,
array (elements encoded through `convertToFirestoreFields({temp: v}).temp`,
i.e. by these same branches), object. -/
def convertValue : JNative → FsValue
  | .null => .nullValue
  | .bool b => .booleanValue b
  | .num q => if q.den = 1 then .integerValue (jsIntegerToString q.num) else .doubleValue q
  | .str s => .stringValue s
  | .arr xs => .arrayValue (some (convertValues xs))
  | .obj kvs => .mapValue (some (convertToFirestoreFields kvs))

/-- The element-wise encoding `value.map((v) => convertToFirestoreFields({temp: v}).temp)`
of the array branch. -/
def convertValues : List JNative → List FsValue
  | [] => []
  | v :: rest => convertValue v :: convertValues rest

/-- Function `convertToFirestoreFields` from `src/server.js` (lines 860–888): encodes
every entry of a native object into its tagged wire form. -/
def convertToFirestoreFields : List (String × JNative) → List (String × FsValue)
  | [] => []
  | (k, v) :: rest => (k, convertValue v) :: convertToFirestoreFields rest
end

/-- Holds exactly on the wire values that carry one of the seven recognized
tags tested by `parseFirestoreValue` (a tagless object or a non-object
input carries none). -/
def hasRecognizedTag : FsValue → Bool
  | .untagged => false
  | .nonObjectInput => false
  | _ => true

mutual
/-- The wire values on which the decoder does not throw anywhere: no
non-object input and no `null` payload under a `mapValue`/`arrayValue`
tag, recursively. -/
def wireWellFormed : FsValue → Bool
  | .nonObjectInput => false
  | .mapValueNull => false
  | .arrayValueNull => false
  | .mapValue (some fs) => wireFieldsWellFormed fs
  | .arrayValue (some vs) => wireValuesWellFormed vs
  | _ => true

/-- Well-formedness of every field value of a `mapValue` payload. -/
def wireFieldsWellFormed : List (String × FsValue) → Bool
  | [] => true
  | (_, v) :: rest => wireWellFormed v && wireFieldsWellFormed rest

/-- Well-formedness of every element of an `arrayValue` payload. -/
def wireValuesWellFormed : List FsValue → Bool
  | [] => true
  | v :: rest => wireWellFormed v && wireValuesWellFormed rest
end

mutual
/-- The native values whose integer-valued numeric leaves all have
magnitude below `10^21` — i.e. on which `value.toString()` stays in
decimal notation, so the `toString`/`parseInt` transport is lossless. -/
def intsInRange : JNative → Bool
  | .null => true
  | .bool _ => true
  | .num q => if q.den = 1 then decide (q.num.natAbs < 10 ^ 21) else true
  | .str _ => true
  | .arr xs => intsInRangeList xs
  | .obj kvs => intsInRangeFields kvs

/-- `intsInRange` on every element of an array. -/
def intsInRangeList : List JNative → Bool
  | [] => true
  | x :: rest => intsInRange x && intsInRangeList rest

/-- `intsInRange` on every field value of an object. -/
def intsInRangeFields : List (String × JNative) → Bool
  | [] => true
  | (_, v) :: rest => intsInRange v && intsInRangeFields rest
end

/-! ## Top-level JSON shape normalization and document-id assignment

The `upload-collection` handlers (Express `src/server.js` lines 213–246,
Hono lines 1093–1122 — identical logic) classify the parsed file content:
an array becomes one document per element; a non-empty object whose every
value satisfies `typeof val === "object"` becomes one document per key via
`{...data, _id: key}`; any other non-empty object becomes a single
document; an empty object and a non-object top level throw.  Note that in
JavaScript `typeof null === "object"` and `typeof [] === "object"`. -/

/-- JavaScript's `typeof v === "object"` test on a JSON value: true for
objects, arrays and `null`. -/
def typeofObject : JNative → Bool
  | .null => true
  | .arr _ => true
  | .obj _ => true
  | _ => false

/-- The entries contributed by `...data` in the object literal
`{...data, _id: id}`: an object spreads its entries, an array spreads to
index-keyed entries (`{...[v]} = {"0": v}`), `null` spreads to nothing.
Only values with `typeof === "object"` reach this spread. -/
def spreadIntoFields : JNative → List (String × JNative)
  | .obj kvs => kvs
  | .arr xs => xs.enum.map (fun p => (toString p.1, p.2))
  | _ => []

/-- JS object-literal update: a later `_id: v` entry overwrites an existing
`_id` key in place (keeping its position) or is appended at the end. -/
def setKey (kvs : List (String × JNative)) (k : String) (v : JNative) :
    List (String × JNative) :=
  if kvs.any (fun kv => kv.1 = k) then
    kvs.map (fun kv => if kv.1 = k then (k, v) else kv)
  else kvs ++ [(k, v)]

/-- One per-key document `{...data, _id: id}` of the
`Object.entries(jsonData).map(([id, data]) => ({...data, _id: id}))` branch. -/
def perKeyDoc (k : String) (data : JNative) : JNative :=
  .obj (setKey (spreadIntoFields data) "_id" (.str k))

/-- The top-level shape classification of the `upload-collection` handlers.
`Array.isArray` is tested first; then `typeof jsonData === "object"`, which
is also true for a top-level `null` — there `Object.keys(null)` throws a
`TypeError` before any other check; then the empty check, the
all-values-`typeof`-object check, and the single-document fallback.
A non-object, non-array, non-null top level throws. -/
def normalizeTopLevel : JNative → Except String (List JNative)
  | .arr xs => .ok xs
  | .null => .error "Cannot convert undefined or null to object"
  | .obj kvs =>
      if kvs.length = 0 then .error "Empty JSON object"
      else if kvs.all (fun kv => typeofObject kv.2) then
        .ok (kvs.map (fun kv => perKeyDoc kv.1 kv.2))
      else .ok [.obj kvs]
  | _ => .error "Invalid JSON structure. Must be an object or array"

/-- JavaScript truthiness of a JSON value (`NaN` does not arise in the
model): `null`, `false`, `0` and `""` are falsy; every object and array is
truthy. -/
def jsTruthy : JNative → Bool
  | .null => false
  | .bool b => b
  | .num q => decide (q ≠ 0)
  | .str s => decide (s ≠ "")
  | .arr _ => true
  | .obj _ => true

/-- JS property access `doc[k]`: `some` value for an object carrying the
key, `none` (i.e. `undefined`) otherwise. -/
def getField : JNative → String → Option JNative
  | .obj kvs, k => (kvs.find? (fun kv => kv.1 = k)).map (fun kv => kv.2)
  | _, _ => none

/-- Models `const docId = doc._id || <synthesized id>` (Express line 241, Hono
line 1118): a truthy `_id` is used as the document id, otherwise the
synthesized id is used (an absent or falsy `_id` is ignored). -/
def chooseDocId (doc : JNative) (synthId : String) : JNative :=
  match getField doc "_id" with
  | some v => if jsTruthy v then v else .str synthId
  | none => .str synthId

/-- Models `if (doc._id) delete doc._id` (Express lines 244–246, Hono lines
1120–1122): the `_id` key is removed from the persisted fields only when it
is truthy.  (JS object keys are unique, so removing every `"_id"` entry of
the association list is the same as `delete`.) -/
def stripId : JNative → JNative
  | .obj kvs =>
      match getField (.obj kvs) "_id" with
      | some v =>
          if jsTruthy v then .obj (kvs.filter (fun kv => ¬ kv.1 = "_id"))
          else .obj kvs
      | none => .obj kvs
  | d => d

/-! ## Batch partitioning

Two partitioning loops appear in the sources: the Express handler
(`src/server.js` lines 234–266) accumulates documents into a running batch
and commits it when it reaches `batchSize` or at the last document; the
standalone script's `uploadJsonToFirestore` slices the input
(`data.slice(i, i + batchSize)` with `i += batchSize`). -/

/-- The Express batching loop: `cur` is the running batch (`batchCount`
documents added since the last commit); a commit is emitted when the
running batch reaches `B` documents or the last document has been added. -/
def batchGo {α : Type} (B : Nat) (cur : List α) : List α → List (List α)
  | [] => []
  | x :: rest =>
      if (cur ++ [x]).length = B ∨ rest.isEmpty = true then
        (cur ++ [x]) :: batchGo B [] rest
      else batchGo B (cur ++ [x]) rest

/-- The sequence of batch commits the Express `upload-collection` loop
issues for a document list and batch size `B` (the source fixes `B = 15`). -/
def commitRuns {α : Type} (B : Nat) (docs : List α) : List (List α) :=
  batchGo B [] docs

/-- The slice-based chunking of the standalone script's
`uploadJsonToFirestore` (`data.slice(i, i + B)` for `i = 0, B, 2B, ...`):
for `B ≥ 1`, `(x :: rest).drop B = rest.drop (B - 1)`, which is the
recursion used here.  (For `B = 0` the source loop does not terminate;
every claim about it assumes `B ≥ 1`.) -/
def sliceRuns {α : Type} (B : Nat) : List α → List (List α)
  | [] => []
  | x :: rest => ((x :: rest).take B) :: sliceRuns B (rest.drop (B - 1))
  termination_by l => l.length
  decreasing_by
    simp only [List.length_cons, List.length_drop]
    omega

/-! ## Commit retry with exponential backoff -/

/-- Observable trace of one `commitBatchWithRetry` call: whether a commit
attempt succeeded, how many commit attempts ran, and the `setTimeout`
delays (in ms) slept between attempts.  A trace with `committed = false`
corresponds to the function surfacing the failure by rethrowing the last
commit error. -/
structure RetryTrace where
  committed : Bool
  attempts : Nat
  delays : List Nat

/-- The `for (let attempt = 1; attempt <= retries; attempt++)` body of
`commitBatchWithRetry` (`src/server.js` lines 45–59): `ok a` tells whether
the commit attempt numbered `a` succeeds; on failure at the final attempt
the error is rethrown, otherwise the loop sleeps
`Math.pow(2, attempt) * 1000` ms and retries. -/
def commitRetryGo (ok : Nat → Bool) : Nat → Nat → RetryTrace
  | _, 0 => ⟨false, 0, []⟩
  | attempt, fuel + 1 =>
      if ok attempt then ⟨true, 1, []⟩
      else if fuel = 0 then ⟨false, 1, []⟩
      else
        let t := commitRetryGo ok (attempt + 1) fuel
        ⟨t.committed, t.attempts + 1, 2 ^ attempt * 1000 :: t.delays⟩

/-- Function `commitBatchWithRetry(batch, collectionName, retries)`: attempts start
at 1; the handler always calls it with the default `retries = 3`. -/
def commitBatchWithRetry (ok : Nat → Bool) (retries : Nat) : RetryTrace :=
  commitRetryGo ok 1 retries

/-- The per-collection commit loop of the Express handler (lines 251–265):
batches are committed in order with `commitBatchWithRetry _ 3`; a batch
whose retries are exhausted rethrows, aborting the remaining batches of the
collection (the per-file `catch` then records the error), while batches
already committed stay committed.  `ok i a` tells whether attempt `a` on
batch `i` succeeds.  Returns the list of committed batches and whether the
loop aborted. -/
def runBatchesGo {α : Type} (ok : Nat → Nat → Bool) :
    Nat → List (List α) → List (List α) × Bool
  | _, [] => ([], false)
  | i, b :: rest =>
      if (commitBatchWithRetry (ok i) 3).committed then
        let r := runBatchesGo ok (i + 1) rest
        (b :: r.1, r.2)
      else ([], true)

/-- Commit loop started at the first batch. -/
def runBatches {α : Type} (ok : Nat → Nat → Bool) (batches : List (List α)) :
    List (List α) × Bool :=
  runBatchesGo ok 0 batches

/-! ## The Hono `upload-collection` handler (per-file loop and gate)

`src/server.js` lines 1056–1195.  Multipart parsing and the filename →
collection-name derivation (`originalFilename.replace(/\.[^/.]+$/, "")`)
are out of the modelled core; a file arrives as its collection name plus
the outcome of `JSON.parse` on its buffer.  Per-document network writes
(`uploadDocument`, a `PATCH` whose `response.ok` decides success) are
modelled by a boolean oracle. -/

/-- One uploaded collection file: the derived collection name and the
result of `JSON.parse` on its contents (`.error msg` when parsing threw). -/
structure FileInput where
  collection : String
  parsed : Except String JNative

/-- One entry of the handler's `results` array: either
`{collection, documentsUploaded, totalDocuments, success}` or
`{collection, error, success: false}`. -/
inductive FileResult where
  | ok (collection : String) (documentsUploaded totalDocuments : Nat) (success : Bool)
  | err (collection : String) (msg : String)

/-- The `success` field of a result entry (`false` on error entries). -/
def FileResult.isSuccess : FileResult → Bool
  | .ok _ _ _ s => s
  | .err _ _ => false

/-- Holds on entries carrying an `error` field. -/
def FileResult.isErr : FileResult → Bool
  | .ok _ _ _ _ => false
  | .err _ _ => true

/-- Counter `successCount` after the per-document loop: one `uploadDocument` call
per document, incrementing the counter exactly when the write's
`response.ok` (oracle `upOk` at the document's index) is true. -/
def countSuccess (upOk : Nat → Bool) (docs : List JNative) : Nat :=
  ((List.range docs.length).filter upOk).length

/-- The per-file `try`/`catch` body (Hono lines 1086–1165): a JSON parse
error or a normalization error is caught and recorded as this file's error
entry; otherwise every document is written and the success entry is pushed
with `success: successCount > 0`. -/
def processFile (upOk : Nat → Bool) (f : FileInput) : FileResult :=
  match f.parsed with
  | .error msg => .err f.collection msg
  | .ok j =>
      match normalizeTopLevel j with
      | .error msg => .err f.collection msg
      | .ok docs =>
          .ok f.collection (countSuccess upOk docs) docs.length
            (decide (countSuccess upOk docs > 0))

/-- The `for (const file of collectionFiles)` loop: files are processed in
order, each contributing exactly one result entry; `upOk i d` is the write
outcome for document `d` of file `i`. -/
def processFilesGo (upOk : Nat → Nat → Bool) : Nat → List FileInput → List FileResult
  | _, [] => []
  | i, f :: rest => processFile (upOk i) f :: processFilesGo upOk (i + 1) rest

/-- The per-file loop started at the first file. -/
def processFiles (upOk : Nat → Nat → Bool) (files : List FileInput) :
    List FileResult :=
  processFilesGo upOk 0 files

/-- Number of document write requests (`uploadDocument` calls) the handler
issues for one file: one per normalized document, none when the file fails
to parse or normalize. -/
def fileUploads (f : FileInput) : Nat :=
  match f.parsed with
  | .error _ => 0
  | .ok j =>
      match normalizeTopLevel j with
      | .error _ => 0
      | .ok docs => docs.length

/-- The handler's observable outcome: HTTP status, the `results` array, the
top-level `success` flag (`hasSuccesses`), and the number of document
write requests issued. -/
structure HandlerResponse where
  status : Nat
  results : List FileResult
  success : Bool
  uploads : Nat

/-- The `upload-collection` handler (Hono lines 1056–1195): a `401` with no
writes unless `isValidServiceAccount` is set; a `400` with no writes when
no file was uploaded; otherwise the per-file loop runs to completion and a
`200` is returned with per-file results, `success = hasSuccesses`. -/
def uploadCollectionHandler (flag : Bool) (files : List FileInput)
    (upOk : Nat → Nat → Bool) : HandlerResponse :=
  if flag = false then ⟨401, [], false, 0⟩
  else if files.isEmpty then ⟨400, [], false, 0⟩
  else
    let rs := processFiles upOk files
    ⟨200, rs, rs.any FileResult.isSuccess, (files.map fileUploads).sum⟩

/-- The module-level `isValidServiceAccount` flag after a sequence of
`validate-service-account` calls: it starts `false` and every call
overwrites it with that call's outcome (`true` only on full validation
success), so it equals the last outcome. -/
def flagAfter (events : List Bool) : Bool :=
  events.foldl (fun _ e => e) false

/-! ## The staged credential validator

`validateServiceAccountComplete` (`src/server.js` lines 369–483) runs:
(1) the structural check, returning immediately on failure; (2) token
acquisition (`getAccessToken`), returning immediately on failure; (3) the
IAM stage, skipped and hard-wired to `true`; (4) Firebase project metadata
(requires `state == "ACTIVE"`), recording a tagged error on failure but
continuing; (5) the Firestore access probe, likewise recording and
continuing; (6) the key validity-window lookup, whose failure only leaves
`accountInfo.keyInfo` null.  Overall
`valid = authentication && iam && firebase`.  Network outcomes are an
oracle. -/

/-- Outcomes of the validator's externally-determined stages. -/
structure StageOutcomes where
  structOk : Bool
  authOk : Bool
  firebaseOk : Bool
  firestoreOk : Bool
  keyOk : Bool
  deriving DecidableEq

/-- The `checks` record of the validation result (`structure` is spelled
`structureCheck`; its initial values in the source are
`{structure: false, authentication: false, iam: true, firestore: false,
firebase: false}`). -/
structure VChecks where
  structureCheck : Bool
  authentication : Bool
  iam : Bool
  firestore : Bool
  firebase : Bool
  deriving DecidableEq

/-- The validation result: overall verdict, the `checks` record, the `type`
tags of the errors pushed (in push order), and whether
`accountInfo.keyInfo` is non-null. -/
structure ValidationResult where
  valid : Bool
  checks : VChecks
  errors : List String
  keyInfoPresent : Bool
  deriving DecidableEq

/-- Function `validateServiceAccountComplete` over the stage-outcome oracle. -/
def validateServiceAccountComplete (o : StageOutcomes) : ValidationResult :=
  if o.structOk = false then
    ⟨false, ⟨false, false, true, false, false⟩, ["structure"], false⟩
  else if o.authOk = false then
    ⟨false, ⟨true, false, true, false, false⟩, ["authentication"], false⟩
  else
    ⟨o.authOk && true && o.firebaseOk,
     ⟨true, true, true, o.firestoreOk, o.firebaseOk⟩,
     (if o.firebaseOk then [] else ["firebase"]) ++
       (if o.firestoreOk then [] else ["firestore"]),
     o.keyOk⟩

/-! ## Codec theorems -/

/-- A rational with denominator 1 (the model of `Number.isInteger`) is the
cast of its numerator: decoding `integerValue q.num` with `parseInt`
recovers `q` exactly. -/
theorem num_cast_of_den_one (q : ℚ) (h : q.den = 1) : (q.num : ℚ) = q := by
  have hd := Rat.num_div_den q
  rw [h] at hd
  simpa using hd

/-! ### The decimal transport is lossless below `10^21` -/

/-- The fuel-indexed digit list denotes its number. -/
theorem valLE_natDigitsAux : ∀ (fuel n : Nat), n ≤ fuel →
    valLE (natDigitsAux fuel n) = n := by
  intro fuel
  induction fuel with
  | zero => intro n hn; rw [Nat.le_zero.mp hn]; rfl
  | succ fuel ih =>
    intro n hn
    by_cases h0 : n = 0
    · subst h0; simp [natDigitsAux, valLE]
    · simp only [natDigitsAux, if_neg h0, valLE]
      rw [ih (n / 10) ?_]
      · exact Nat.mod_add_div n 10
      · have := Nat.div_lt_self (Nat.pos_of_ne_zero h0) (by omega : 1 < 10)
        omega

/-- Every produced decimal digit is below 10. -/
theorem natDigitsAux_lt : ∀ (fuel n : Nat), ∀ d ∈ natDigitsAux fuel n, d < 10 := by
  intro fuel
  induction fuel with
  | zero => intro n d hd; simp [natDigitsAux] at hd
  | succ fuel ih =>
    intro n d hd
    by_cases h0 : n = 0
    · rw [h0] at hd; simp [natDigitsAux] at hd
    · simp only [natDigitsAux, if_neg h0] at hd
      rcases List.mem_cons.mp hd with h | h
      · rw [h]; exact Nat.mod_lt _ (by omega)
      · exact ih _ d h

/-- A digit character passes `Char.isDigit`. -/
theorem digitChar_isDigit (d : Nat) (h : d < 10) : (digitChar d).isDigit = true := by
  interval_cases d <;> decide

/-- Decoding a digit character recovers the digit. -/
theorem digitChar_toNat (d : Nat) (h : d < 10) : (digitChar d).toNat - 48 = d := by
  interval_cases d <;> decide

/-- A digit character is not the minus sign. -/
theorem digitChar_ne_minus (d : Nat) (h : d < 10) : ¬ digitChar d = '-' := by
  interval_cases d <;> decide

/-- `takeWhile` keeps a list all of whose elements satisfy the predicate. -/
theorem takeWhile_all {α : Type} (p : α → Bool) :
    ∀ l : List α, (∀ c ∈ l, p c = true) → l.takeWhile p = l := by
  intro l
  induction l with
  | nil => intro _; rfl
  | cons c rest ih =>
    intro h
    rw [List.takeWhile_cons, h c (by simp), if_pos rfl,
      ih (fun x hx => h x (by simp [hx]))]

/-- Folding characters of rendered digits equals folding the digits. -/
theorem foldl_digits_map : ∀ (ds : List Nat) (a : Nat), (∀ d ∈ ds, d < 10) →
    (ds.map digitChar).foldl (fun a c => a * 10 + (c.toNat - 48)) a =
      ds.foldl (fun a d => a * 10 + d) a := by
  intro ds
  induction ds with
  | nil => intro a _; rfl
  | cons d rest ih =>
    intro a h
    simp only [List.map_cons, List.foldl_cons]
    rw [digitChar_toNat d (h d (by simp))]
    exact ih _ (fun x hx => h x (by simp [hx]))

/-- Folding the big-endian digits recovers the little-endian value. -/
theorem foldl_reverse_valLE : ∀ (ds : List Nat) (a : Nat),
    ds.reverse.foldl (fun a d => a * 10 + d) a = a * 10 ^ ds.length + valLE ds := by
  intro ds
  induction ds with
  | nil => intro a; simp [valLE]
  | cons d rest ih =>
    intro a
    simp only [List.reverse_cons, List.foldl_append, List.foldl_cons, List.foldl_nil]
    rw [ih a]
    simp only [valLE, List.length_cons]
    ring

/-- Reading the digit run of a decimal rendering recovers the number. -/
theorem digitsVal_decimal (n : Nat) :
    digitsVal ((natToDecimalList n).takeWhile Char.isDigit) = n := by
  by_cases h0 : n = 0
  · subst h0; rfl
  · unfold natToDecimalList natDigitsLE
    rw [if_neg h0]
    have hdig : ∀ c ∈ ((natDigitsAux n n).reverse.map digitChar), c.isDigit = true := by
      intro c hc
      rcases List.mem_map.mp hc with ⟨d, hd, rfl⟩
      exact digitChar_isDigit d (natDigitsAux_lt n n d (List.mem_reverse.mp hd))
    rw [takeWhile_all _ _ hdig]
    unfold digitsVal
    rw [foldl_digits_map _ 0 (fun d hd => natDigitsAux_lt n n d (List.mem_reverse.mp hd))]
    rw [foldl_reverse_valLE]
    rw [valLE_natDigitsAux n n (Nat.le_refl n)]
    simp

/-- A decimal rendering starts with a digit character. -/
theorem natToDecimalList_head_digit (n : Nat) :
    ∃ d rest, d < 10 ∧ natToDecimalList n = digitChar d :: rest := by
  by_cases h0 : n = 0
  · exact ⟨0, [], by omega, by simp [h0, natToDecimalList, digitChar]⟩
  · cases hds : (natDigitsAux n n).reverse with
    | nil =>
      exfalso
      have hnil : natDigitsAux n n = [] := by simpa using congrArg List.reverse hds
      have hv := valLE_natDigitsAux n n (Nat.le_refl n)
      rw [hnil] at hv
      exact h0 (by simpa [valLE] using hv.symm)
    | cons d rest =>
      refine ⟨d, rest.map digitChar, ?_, ?_⟩
      · refine natDigitsAux_lt n n d (List.mem_reverse.mp ?_)
        rw [hds]; exact List.mem_cons_self _ _
      · simp [natToDecimalList, natDigitsLE, if_neg h0, hds]

/-- `parseInt` on a minus-prefixed list negates the digit run. -/
theorem jsParseIntList_minus (cs : List Char) :
    jsParseIntList ('-' :: cs) = -(digitsVal (cs.takeWhile Char.isDigit) : ℤ) := by
  simp [jsParseIntList]

/-- `parseInt` on a list not starting with a minus reads its digit run. -/
theorem jsParseIntList_digit (c : Char) (cs : List Char) (h : ¬ c = '-') :
    jsParseIntList (c :: cs) = (digitsVal ((c :: cs).takeWhile Char.isDigit) : ℤ) := by
  simp [jsParseIntList, h]

/-- The `toString`/`parseInt` transport is the identity on integers of
magnitude below `10^21` (the decimal-notation range). -/
theorem jsParseInt_decimal (i : ℤ) (h : i.natAbs < 10 ^ 21) :
    jsParseInt (jsIntegerToString i) = i := by
  unfold jsIntegerToString jsParseInt
  rw [if_pos h]
  obtain ⟨d, rest, hd, hshape⟩ := natToDecimalList_head_digit i.natAbs
  by_cases hneg : i < 0
  · rw [if_pos hneg]
    show jsParseIntList ('-' :: natToDecimalList i.natAbs) = i
    rw [jsParseIntList_minus, digitsVal_decimal i.natAbs]
    omega
  · rw [if_neg hneg]
    show jsParseIntList (natToDecimalList i.natAbs) = i
    rw [hshape, jsParseIntList_digit (digitChar d) rest (digitChar_ne_minus d hd)]
    rw [← hshape, digitsVal_decimal i.natAbs]
    omega

/-! ### Round trip and totality of the codec -/

mutual
/-- Decoding inverts encoding on every native value whose integer leaves
are within the decimal-notation range. -/
theorem roundtrip_value : (v : JNative) → intsInRange v = true →
    parseFirestoreValue (convertValue v) = .ok v
  | .null, _ => rfl
  | .bool _, _ => rfl
  | .num q, h => by
      by_cases hq : q.den = 1
      · have hrange : q.num.natAbs < 10 ^ 21 := by
          simpa [intsInRange, hq] using h
        simp [convertValue, parseFirestoreValue, hq, jsParseInt_decimal q.num hrange,
          num_cast_of_den_one q hq]
      · simp [convertValue, parseFirestoreValue, hq]
  | .str _, _ => rfl
  | .arr xs, h => by
      have hxs : intsInRangeList xs = true := by simpa [intsInRange] using h
      simp only [convertValue, parseFirestoreValue]
      rw [roundtrip_values xs hxs]
  | .obj kvs, h => by
      have hkvs : intsInRangeFields kvs = true := by simpa [intsInRange] using h
      simp only [convertValue, parseFirestoreValue]
      rw [roundtrip_fields kvs hkvs]

/-- Decoding inverts encoding element-wise on array values. -/
theorem roundtrip_values : (xs : List JNative) → intsInRangeList xs = true →
    parseValues (convertValues xs) = .ok xs
  | [], _ => rfl
  | x :: rest, h => by
      have hx : intsInRange x = true := by
        simp only [intsInRangeList, Bool.and_eq_true] at h
        exact h.1
      have hrest : intsInRangeList rest = true := by
        simp only [intsInRangeList, Bool.and_eq_true] at h
        exact h.2
      simp only [convertValues, parseValues]
      rw [roundtrip_value x hx, roundtrip_values rest hrest]

/-- Decoding inverts encoding entry-wise on object fields. -/
theorem roundtrip_fields : (kvs : List (String × JNative)) →
    intsInRangeFields kvs = true →
    parseFields (convertToFirestoreFields kvs) = .ok kvs
  | [], _ => rfl
  | (k, v) :: rest, h => by
      have hv : intsInRange v = true := by
        simp only [intsInRangeFields, Bool.and_eq_true] at h
        exact h.1
      have hrest : intsInRangeFields rest = true := by
        simp only [intsInRangeFields, Bool.and_eq_true] at h
        exact h.2
      simp only [convertToFirestoreFields, parseFields]
      rw [roundtrip_value v hv, roundtrip_fields rest hrest]
end

mutual
/-- The decoder returns a value on every well-formed wire value. -/
theorem parse_total : (w : FsValue) → wireWellFormed w = true →
    ∃ v, parseFirestoreValue w = .ok v
  | .nonObjectInput, h => by simp [wireWellFormed] at h
  | .stringValue s, _ => ⟨_, rfl⟩
  | .integerValue s, _ => ⟨_, rfl⟩
  | .doubleValue q, _ => ⟨_, rfl⟩
  | .booleanValue b, _ => ⟨_, rfl⟩
  | .nullValue, _ => ⟨_, rfl⟩
  | .mapValueNull, h => by simp [wireWellFormed] at h
  | .mapValue none, _ => ⟨_, rfl⟩
  | .mapValue (some fs), h => by
      have hf : wireFieldsWellFormed fs = true := by simpa [wireWellFormed] using h
      obtain ⟨kvs, hkvs⟩ := parseFields_total fs hf
      exact ⟨.obj kvs, by simp only [parseFirestoreValue]; rw [hkvs]⟩
  | .arrayValueNull, h => by simp [wireWellFormed] at h
  | .arrayValue none, _ => ⟨_, rfl⟩
  | .arrayValue (some vs), h => by
      have hv : wireValuesWellFormed vs = true := by simpa [wireWellFormed] using h
      obtain ⟨xs, hxs⟩ := parseValues_total vs hv
      exact ⟨.arr xs, by simp only [parseFirestoreValue]; rw [hxs]⟩
  | .untagged, _ => ⟨_, rfl⟩

/-- Field decoding returns a value on well-formed field lists. -/
theorem parseFields_total : (fs : List (String × FsValue)) →
    wireFieldsWellFormed fs = true → ∃ kvs, parseFields fs = .ok kvs
  | [], _ => ⟨[], rfl⟩
  | (k, v) :: rest, h => by
      have hv : wireWellFormed v = true := by
        simp only [wireFieldsWellFormed, Bool.and_eq_true] at h
        exact h.1
      have hrest : wireFieldsWellFormed rest = true := by
        simp only [wireFieldsWellFormed, Bool.and_eq_true] at h
        exact h.2
      obtain ⟨jv, hjv⟩ := parse_total v hv
      obtain ⟨tail, htail⟩ := parseFields_total rest hrest
      exact ⟨(k, jv) :: tail, by simp only [parseFields]; rw [hjv, htail]⟩

/-- Element decoding returns a value on well-formed element lists. -/
theorem parseValues_total : (vs : List FsValue) →
    wireValuesWellFormed vs = true → ∃ xs, parseValues vs = .ok xs
  | [], _ => ⟨[], rfl⟩
  | v :: rest, h => by
      have hv : wireWellFormed v = true := by
        simp only [wireValuesWellFormed, Bool.and_eq_true] at h
        exact h.1
      have hrest : wireValuesWellFormed rest = true := by
        simp only [wireValuesWellFormed, Bool.and_eq_true] at h
        exact h.2
      obtain ⟨jv, hjv⟩ := parse_total v hv
      obtain ⟨tail, htail⟩ := parseValues_total rest hrest
      exact ⟨jv :: tail, by simp only [parseValues]; rw [hjv, htail]⟩
end

/-- Claim C1 counterexample: the claim asserts `decode(encode(v)) = v` for
every native value.  At `v = 10^21` (an integer-valued number, so
`Number.isInteger` holds) the encoder emits
`{ integerValue: (1e21).toString() } = { integerValue: "1e+21" }`, and the
decoder's `parseInt("1e+21")` reads only the leading digit run, returning
`1 ≠ 10^21` — the program's own composition falsifies the round trip. -/
theorem C1_large_integer_counterexample :
    convertValue (.num (mkRat (10 ^ 21) 1)) = .integerValue "1e+21" ∧
    parseFirestoreValue (convertValue (.num (mkRat (10 ^ 21) 1))) = .ok (.num 1) ∧
    (mkRat (10 ^ 21) 1 : ℚ) ≠ 1 ∧
    parseFirestoreValue (convertValue (.num (mkRat (10 ^ 21) 1))) ≠
      .ok (.num (mkRat (10 ^ 21) 1)) := by
  refine ⟨rfl, rfl, by decide, ?_⟩
  intro hcl
  rw [show parseFirestoreValue (convertValue (.num (mkRat (10 ^ 21) 1))) =
      .ok (.num 1) from rfl] at hcl
  simp only [Except.ok.injEq, JNative.num.injEq] at hcl
  exact absurd hcl (by decide)

/-- Claim C1 amended: decoding the encoded form returns the original value
for every native JSON value all of whose integer-valued numeric leaves
have magnitude below `10^21` — the range in which `value.toString()` stays
in decimal notation, making the `toString`/`parseInt` integer transport
lossless; the integer/double tag distinction lives only on the wire and
numeric equality is preserved exactly.  From `10^21` on, `toString`
switches to exponential notation and `parseInt` truncates it, so the round
trip fails there (`decode(encode(10^21)) = 1`).  Field-map encoding
round-trips entry by entry under the same condition. -/
theorem C1_codec_round_trip :
    (∀ v : JNative, intsInRange v = true →
      parseFirestoreValue (convertValue v) = .ok v) ∧
    (∀ kvs : List (String × JNative), intsInRangeFields kvs = true →
      parseFields (convertToFirestoreFields kvs) = .ok kvs) :=
  ⟨roundtrip_value, roundtrip_fields⟩

/-- Claim C1 witness: the round trip evaluated on a nested value covering
null, boolean, integer, non-integer, string, array and object. -/
theorem C1_codec_round_trip_witness :
    parseFirestoreValue (convertValue (.obj [("a", .num 3),
      ("b", .arr [.str "x", .null, .bool true, .num (mkRat 7 2)])])) =
      .ok (.obj [("a", .num 3),
        ("b", .arr [.str "x", .null, .bool true, .num (mkRat 7 2)])]) :=
  C1_codec_round_trip.1 _ (by decide)

/-- Claim C2 counterexample: the claim asserts that the encoding of `3`
differs from the encoding of `3.0` at the wire-tag level.  JavaScript has a
single number type and `JSON.parse` yields the very same native number for
the literals `3` and `3.0` (`3 === 3.0`), so both satisfy
`Number.isInteger` and the encoder produces the *same* integer-tagged wire
value for them — their encodings are equal, not different. -/
theorem C2_three_vs_three_point_zero :
    convertValue (.num (3.0 : ℚ)) = convertValue (.num (3 : ℚ)) := by
  norm_num

/-- Claim C2 amended: the encoder tags every integer-valued number with the
integer tag and every non-integer number with the double tag; since the
native value `3.0` *is* the integer-valued number `3`, both are encoded
integer-tagged, and the observable wire-tag distinction is between
integer-valued and non-integer numbers — `encode 3 ≠ encode (7/2)` at the
wire level while both decode back to numerically equal values. -/
theorem C2_number_tagging :
    (∀ q : ℚ, q.den = 1 →
      convertValue (.num q) = .integerValue (jsIntegerToString q.num)) ∧
    (∀ q : ℚ, q.den ≠ 1 → convertValue (.num q) = .doubleValue q) ∧
    convertValue (.num 3) = .integerValue "3" ∧
    convertValue (.num (mkRat 7 2)) = .doubleValue (mkRat 7 2) ∧
    convertValue (.num 3) ≠ convertValue (.num (mkRat 7 2)) ∧
    parseFirestoreValue (convertValue (.num 3)) = .ok (.num 3) ∧
    parseFirestoreValue (convertValue (.num (mkRat 7 2))) = .ok (.num (mkRat 7 2)) := by
  refine ⟨fun q h => by simp [convertValue, h],
          fun q h => by simp [convertValue, h],
          ?_, ?_, ?_, ?_, ?_⟩
  · rfl
  · have : (mkRat 7 2).den = 2 := rfl
    simp [convertValue, this]
  · have h2 : (mkRat 7 2).den = 2 := rfl
    simp only [convertValue, h2]
    exact fun h => FsValue.noConfusion h
  · exact roundtrip_value (.num 3) (by decide)
  · exact roundtrip_value (.num (mkRat 7 2)) (by decide)

/-- Claim C2 witness: the two tagging rules of the amended claim evaluated
at the concrete inputs `3` (denominator 1) and `7/2` (denominator 2). -/
theorem C2_number_tagging_witness :
    convertValue (.num 3) = .integerValue (jsIntegerToString (3 : ℚ).num) ∧
    convertValue (.num (mkRat 7 2)) = .doubleValue (mkRat 7 2) :=
  ⟨C2_number_tagging.1 3 (by decide), C2_number_tagging.2.1 (mkRat 7 2) (by decide)⟩

/-- Claim C9 counterexample: the claim asserts the decoder never throws on
any input object.  `{mapValue: null}` carries the recognized `mapValue`
tag, so it is an input object, yet `value.mapValue.fields` throws a
TypeError on the `null` payload; likewise `{arrayValue: null}`, and an
array payload containing a non-object element (`"stringValue" in null`
throws inside the recursive call). -/
theorem C9_null_payload_counterexample :
    parseFirestoreValue .mapValueNull =
      .error "TypeError: cannot read fields of null" ∧
    parseFirestoreValue .arrayValueNull =
      .error "TypeError: cannot read values of null" ∧
    parseFirestoreValue (.arrayValue (some [.nonObjectInput])) =
      .error "TypeError: cannot use the in operator on a non-object" :=
  ⟨rfl, rfl, rfl⟩

/-- Claim C9 amended: the decoder returns a value without throwing on
every *well-formed* wire value — every input object with no `null` payload
under a `mapValue`/`arrayValue` tag and no non-object nested input — and a
well-formed input carrying none of the seven recognized tags
(`stringValue`, `integerValue`, `doubleValue`, `booleanValue`,
`nullValue`, `mapValue`, `arrayValue`) decodes to `null` rather than an
error; on a null-payload `mapValue`/`arrayValue` or a non-object input it
throws a TypeError. -/
theorem C9_decoder_total :
    (∀ w : FsValue, wireWellFormed w = true → ∃ v, parseFirestoreValue w = .ok v) ∧
    (∀ w : FsValue, hasRecognizedTag w = false → wireWellFormed w = true →
      parseFirestoreValue w = .ok .null) := by
  refine ⟨parse_total, ?_⟩
  intro w htag hwf
  cases w <;> simp_all [hasRecognizedTag, wireWellFormed, parseFirestoreValue]

/-- Claim C9 witness: the decoder evaluated at a well-formed map input and
at the tagless input object. -/
theorem C9_decoder_total_witness :
    (∃ v, parseFirestoreValue (.mapValue (some [("k", .stringValue "s")])) = .ok v) ∧
    parseFirestoreValue .untagged = .ok .null :=
  ⟨C9_decoder_total.1 _ rfl, C9_decoder_total.2 .untagged rfl rfl⟩

/-! ## Batch partitioning theorems -/

/-- The batches emitted by the Express accumulation loop concatenate back to
the input document list. -/
theorem batchGo_join {α : Type} (B : Nat) :
    ∀ (l : List α), l ≠ [] → ∀ cur, (batchGo B cur l).flatten = cur ++ l := by
  intro l
  induction l with
  | nil => intro h; exact absurd rfl h
  | cons x rest ih =>
    intro _ cur
    by_cases hr : rest = []
    · subst hr
      simp [batchGo]
    · have hre : rest.isEmpty = false := by
        simpa [List.isEmpty_iff] using hr
      by_cases hb : (cur ++ [x]).length = B
      · have hcond : ((cur ++ [x]).length = B ∨ rest.isEmpty = true) := Or.inl hb
        simp only [batchGo]
        rw [if_pos hcond, List.flatten_cons, ih hr []]
        simp
      · have hb' : ¬(cur.length + 1 = B) := by simpa using hb
        have hcond : ¬((cur ++ [x]).length = B ∨ rest.isEmpty = true) := by
          simp [hb', hre]
        simp only [batchGo]
        rw [if_neg hcond, ih hr (cur ++ [x])]
        simp

/-- The Express accumulation loop emits exactly `⌈(cur.length + l.length) / B⌉`
commits when started with a partially filled batch `cur`. -/
theorem batchGo_count {α : Type} (B : Nat) (hB : 0 < B) :
    ∀ (l : List α), l ≠ [] → ∀ cur : List α, cur.length < B →
      (batchGo B cur l).length = (cur.length + l.length + B - 1) / B := by
  intro l
  induction l with
  | nil => intro h; exact absurd rfl h
  | cons x rest ih =>
    intro _ cur hc
    by_cases hr : rest = []
    · subst hr
      rw [show batchGo B cur [x] = [cur ++ [x]] from by simp [batchGo]]
      simp only [List.length_singleton, List.length_cons, List.length_nil]
      rw [show cur.length + (0 + 1) + B - 1 = cur.length + B from by omega]
      rw [Nat.add_div_right _ hB, Nat.div_eq_of_lt hc]
    · have hre : rest.isEmpty = false := by simpa [List.isEmpty_iff] using hr
      by_cases hb : (cur ++ [x]).length = B
      · have hcond : ((cur ++ [x]).length = B ∨ rest.isEmpty = true) := Or.inl hb
        simp only [batchGo]
        rw [if_pos hcond]
        simp only [List.length_cons]
        rw [ih hr [] (by simpa using Nat.lt_of_le_of_lt (Nat.zero_le _) hc)]
        have hcb : cur.length + 1 = B := by simpa using hb
        rw [show cur.length + (rest.length + 1) + B - 1 = (0 + rest.length + B - 1) + B
          from by omega]
        rw [Nat.add_div_right _ hB]
        simp
      · have hb' : ¬(cur.length + 1 = B) := by simpa using hb
        have hcond : ¬((cur ++ [x]).length = B ∨ rest.isEmpty = true) := by
          simp [hb', hre]
        simp only [batchGo]
        rw [if_neg hcond]
        have h1 : (cur ++ [x]).length = cur.length + 1 := by simp
        rw [ih hr (cur ++ [x]) (by rw [h1]; omega)]
        rw [h1]
        simp only [List.length_cons]
        rw [show cur.length + 1 + rest.length + B - 1
            = cur.length + (rest.length + 1) + B - 1 from by omega]

/-- Every batch the Express accumulation loop commits holds at most `B`
documents. -/
theorem batchGo_sizes {α : Type} (B : Nat) :
    ∀ (l : List α) (cur : List α), cur.length < B →
      ∀ r ∈ batchGo B cur l, r.length ≤ B := by
  intro l
  induction l with
  | nil => intro cur _ r hr; simp [batchGo] at hr
  | cons x rest ih =>
    intro cur hc r hr
    simp only [batchGo] at hr
    by_cases hcond : ((cur ++ [x]).length = B ∨ rest.isEmpty = true)
    · rw [if_pos hcond] at hr
      rcases List.mem_cons.mp hr with h | h
      · subst h
        simp only [List.length_append, List.length_singleton]
        omega
      · exact ih [] (by simpa using Nat.lt_of_le_of_lt (Nat.zero_le _) hc) r h
    · rw [if_neg hcond] at hr
      have hb : ¬(cur ++ [x]).length = B := fun h => hcond (Or.inl h)
      refine ih (cur ++ [x]) ?_ r hr
      simp only [List.length_append, List.length_singleton] at hb ⊢
      omega

/-- Fuel-indexed version: slice chunking reassembles the input. -/
theorem sliceRuns_join_aux {α : Type} (k : Nat) :
    ∀ (n : Nat) (l : List α), l.length ≤ n → (sliceRuns (k + 1) l).flatten = l := by
  intro n
  induction n with
  | zero =>
    intro l hl
    rw [List.length_eq_zero.mp (Nat.le_zero.mp hl)]
    simp [sliceRuns]
  | succ n ih =>
    intro l hl
    cases l with
    | nil => simp [sliceRuns]
    | cons x rest =>
      simp only [sliceRuns, List.flatten_cons, Nat.add_sub_cancel]
      rw [ih (rest.drop k) (by simp only [List.length_drop]; simp only [List.length_cons] at hl; omega)]
      rw [List.take_succ_cons, List.cons_append, List.take_append_drop]

/-- The script's slice chunks concatenate back to the input list. -/
theorem sliceRuns_join {α : Type} (B : Nat) (hB : 0 < B) (l : List α) :
    (sliceRuns B l).flatten = l := by
  obtain ⟨k, rfl⟩ : ∃ k, B = k + 1 := ⟨B - 1, by omega⟩
  exact sliceRuns_join_aux k l.length l (Nat.le_refl _)

/-- Fuel-indexed version: slice chunking emits `⌈length / B⌉` chunks. -/
theorem sliceRuns_count_aux {α : Type} (k : Nat) :
    ∀ (n : Nat) (l : List α), l.length ≤ n → l ≠ [] →
      (sliceRuns (k + 1) l).length = (l.length + (k + 1) - 1) / (k + 1) := by
  intro n
  induction n with
  | zero =>
    intro l hl h
    exact absurd (List.length_eq_zero.mp (Nat.le_zero.mp hl)) h
  | succ n ih =>
    intro l hl hne
    cases l with
    | nil => exact absurd rfl hne
    | cons x rest =>
      simp only [sliceRuns, List.length_cons, Nat.add_sub_cancel]
      by_cases hd : rest.drop k = []
      · rw [hd]
        rw [show sliceRuns (k + 1) ([] : List α) = [] from by simp [sliceRuns]]
        have hr : rest.length ≤ k := by
          simpa [List.drop_eq_nil_iff] using hd
        rw [show rest.length + 1 + (k + 1) - 1 = rest.length + (k + 1) from by omega]
        rw [Nat.add_div_right _ (Nat.succ_pos k), Nat.div_eq_of_lt (by omega)]
        simp
      · have hr : k < rest.length := by
          by_contra hcon
          exact hd (List.drop_eq_nil_iff.mpr (by omega))
        rw [ih (rest.drop k) (by simp only [List.length_drop]; simp only [List.length_cons] at hl; omega) hd]
        simp only [List.length_drop]
        rw [show rest.length - k + (k + 1) - 1 = rest.length from by omega]
        rw [show rest.length + 1 + (k + 1) - 1 = rest.length + (k + 1) from by omega]
        rw [Nat.add_div_right _ (Nat.succ_pos k)]

/-- The script's `uploadJsonToFirestore` issues `⌈N / B⌉` batch commits. -/
theorem sliceRuns_count {α : Type} (B : Nat) (hB : 0 < B) (l : List α) (h : l ≠ []) :
    (sliceRuns B l).length = (l.length + B - 1) / B := by
  obtain ⟨k, rfl⟩ : ∃ k, B = k + 1 := ⟨B - 1, by omega⟩
  exact sliceRuns_count_aux k l.length l (Nat.le_refl _) h

/-- Fuel-indexed version: every slice chunk has at most `B` elements. -/
theorem sliceRuns_sizes_aux {α : Type} (B : Nat) :
    ∀ (n : Nat) (l : List α), l.length ≤ n → ∀ r ∈ sliceRuns B l, r.length ≤ B := by
  intro n
  induction n with
  | zero =>
    intro l hl r hr
    rw [List.length_eq_zero.mp (Nat.le_zero.mp hl)] at hr
    simp [sliceRuns] at hr
  | succ n ih =>
    intro l hl r hr
    cases l with
    | nil => simp [sliceRuns] at hr
    | cons x rest =>
      simp only [sliceRuns] at hr
      rcases List.mem_cons.mp hr with h | h
      · subst h; exact List.length_take_le _ _
      · exact ih (rest.drop (B - 1)) (by simp only [List.length_drop]; simp only [List.length_cons] at hl; omega) r h

/-- Every chunk of the script's slice partition has at most `B` elements. -/
theorem sliceRuns_sizes {α : Type} (B : Nat) (l : List α) :
    ∀ r ∈ sliceRuns B l, r.length ≤ B :=
  sliceRuns_sizes_aux B l.length l (Nat.le_refl _)

/-- Claim C3: for every non-empty document list of length `N` and batch size
`B > 0`, the batch writer issues exactly `⌈N/B⌉` commits (`(N + B - 1) / B`),
each commit holds at most `B` documents, and the commits concatenate back to
the input list — every document is covered exactly once, with no duplicates
or omissions.  Proved both for the Express handler's accumulation loop
(`commitRuns`) and for the standalone script's slice-based
`uploadJsonToFirestore` chunking (`sliceRuns`). -/
theorem C3_batch_partition {α : Type} (docs : List α) (B : Nat)
    (hB : 0 < B) (hN : docs ≠ []) :
    (commitRuns B docs).length = (docs.length + B - 1) / B ∧
    (∀ r ∈ commitRuns B docs, r.length ≤ B) ∧
    (commitRuns B docs).flatten = docs ∧
    (sliceRuns B docs).length = (docs.length + B - 1) / B ∧
    (∀ r ∈ sliceRuns B docs, r.length ≤ B) ∧
    (sliceRuns B docs).flatten = docs := by
  refine ⟨?_, ?_, ?_, sliceRuns_count B hB docs hN, sliceRuns_sizes B docs,
    sliceRuns_join B hB docs⟩
  · simpa [commitRuns] using batchGo_count B hB docs hN [] (by simpa using hB)
  · simpa [commitRuns] using batchGo_sizes B docs [] (by simpa using hB)
  · simpa [commitRuns] using batchGo_join B docs hN []

/-- Claim C3 witness: the partition property evaluated at three documents
and batch size 2: two commits, sizes 2 and 1. -/
theorem C3_batch_partition_witness :
    (commitRuns 2 ([10, 20, 30] : List Nat)).length = (3 + 2 - 1) / 2 ∧
    (∀ r ∈ commitRuns 2 ([10, 20, 30] : List Nat), r.length ≤ 2) ∧
    (commitRuns 2 ([10, 20, 30] : List Nat)).flatten = [10, 20, 30] ∧
    (sliceRuns 2 ([10, 20, 30] : List Nat)).length = (3 + 2 - 1) / 2 ∧
    (∀ r ∈ sliceRuns 2 ([10, 20, 30] : List Nat), r.length ≤ 2) ∧
    (sliceRuns 2 ([10, 20, 30] : List Nat)).flatten = [10, 20, 30] :=
  C3_batch_partition [10, 20, 30] 2 (by decide) (by decide)

/-! ## Retry and abort theorems -/

/-- A batch whose three commit attempts all fail: retries exhausted, the
failure surfaces (`committed = false`), with backoff delays of `2^1 · 1000`
and `2^2 · 1000` ms before attempts 2 and 3. -/
theorem commitRetry_allFail (ok : Nat → Bool) (h1 : ok 1 = false) (h2 : ok 2 = false)
    (h3 : ok 3 = false) :
    commitBatchWithRetry ok 3 = ⟨false, 3, [2 ^ 1 * 1000, 2 ^ 2 * 1000]⟩ := by
  simp [commitBatchWithRetry, commitRetryGo, h1, h2, h3]

/-- A batch whose first commit attempt succeeds commits with a single
attempt and no backoff delay. -/
theorem commitRetry_firstOk (ok : Nat → Bool) (h1 : ok 1 = true) :
    commitBatchWithRetry ok 3 = ⟨true, 1, []⟩ := by
  simp [commitBatchWithRetry, commitRetryGo, h1]

/-- If batches before index `j` commit on their first attempt and batch `j`
fails every attempt, the commit loop commits exactly the first `j` batches
and aborts. -/
theorem runBatchesGo_abort {α : Type} (ok : Nat → Nat → Bool) :
    ∀ (bs : List (List α)) (j i : Nat),
      j < bs.length →
      (∀ a, ok (i + j) a = false) →
      (∀ kk, kk < j → ok (i + kk) 1 = true) →
      runBatchesGo ok i bs = (bs.take j, true) := by
  intro bs
  induction bs with
  | nil => intro j i hj _ _; simp at hj
  | cons b rest ih =>
    intro j i hj hfail hprev
    cases j with
    | zero =>
      have hc : commitBatchWithRetry (ok i) 3 = ⟨false, 3, [2 ^ 1 * 1000, 2 ^ 2 * 1000]⟩ :=
        commitRetry_allFail _ (by simpa using hfail 1) (by simpa using hfail 2)
          (by simpa using hfail 3)
      simp [runBatchesGo, hc]
    | succ j' =>
      have hok : ok i 1 = true := by simpa using hprev 0 (Nat.succ_pos j')
      have hc : commitBatchWithRetry (ok i) 3 = ⟨true, 1, []⟩ :=
        commitRetry_firstOk _ hok
      have hrec : runBatchesGo ok (i + 1) rest = (rest.take j', true) := by
        refine ih j' (i + 1) (by simpa using Nat.lt_of_succ_lt_succ hj) ?_ ?_
        · intro a
          have := hfail a
          rwa [show i + (j' + 1) = i + 1 + j' from by omega] at this
        · intro kk hkk
          have := hprev (kk + 1) (Nat.succ_lt_succ hkk)
          rwa [show i + (kk + 1) = i + 1 + kk from by omega] at this
      simp [runBatchesGo, hc, hrec]

/-- Claim C4: for a batch whose every commit attempt fails,
`commitBatchWithRetry` performs exactly 3 commit attempts, the delays slept
before attempts 2 and 3 are `2^1 · 1000 = 2000` ms and `2^2 · 1000 = 4000`
ms (the exponential doubling schedule `Math.pow(2, attempt) * 1000`), and
the failure is surfaced (`committed = false`); in the handler's commit loop
this aborts the remaining batches of the collection while the batches
committed before it remain committed (`runBatches` returns exactly the
prefix of prior batches, with the aborted flag set — no rollback). -/
theorem C4_retry_bound {α : Type} (bs : List (List α)) (j : Nat) (ok : Nat → Nat → Bool)
    (hj : j < bs.length)
    (hfail : ∀ a, ok j a = false)
    (hprev : ∀ i, i < j → ok i 1 = true) :
    commitBatchWithRetry (ok j) 3 = ⟨false, 3, [2 ^ 1 * 1000, 2 ^ 2 * 1000]⟩ ∧
    runBatches ok bs = (bs.take j, true) := by
  constructor
  · exact commitRetry_allFail _ (hfail 1) (hfail 2) (hfail 3)
  · have := runBatchesGo_abort ok bs j 0 hj (by simpa using hfail)
      (fun kk hkk => by simpa using hprev kk hkk)
    simpa [runBatches] using this

/-- Claim C4 witness: three batches where the second fails every attempt —
three attempts, delays 2000 ms and 4000 ms, only the first batch committed. -/
theorem C4_retry_bound_witness :
    commitBatchWithRetry ((fun i _ => decide (i < 1)) 1) 3 =
      ⟨false, 3, [2 ^ 1 * 1000, 2 ^ 2 * 1000]⟩ ∧
    runBatches (fun i _ => decide (i < 1)) ([[1], [2], [3]] : List (List Nat)) =
      ([[1]], true) :=
  C4_retry_bound [[1], [2], [3]] 1 (fun i _ => decide (i < 1)) (by decide)
    (fun _ => rfl) (fun i hi => by simp [Nat.lt_one_iff.mp hi])

/-! ## Per-file isolation and the credential gate -/

/-- When every per-document write succeeds, `successCount` equals the number
of documents. -/
theorem countSuccess_all (u : Nat → Bool) (docs : List JNative) (h : ∀ i, u i = true) :
    countSuccess u docs = docs.length := by
  unfold countSuccess
  rw [List.filter_eq_self.mpr (fun a _ => h a)]
  exact List.length_range _

/-- A file recorded as an error entry issued no document writes. -/
theorem processFile_err_uploads (u : Nat → Bool) (f : FileInput) (c m : String)
    (h : processFile u f = .err c m) : fileUploads f = 0 := by
  cases hp : f.parsed with
  | error msg => simp [fileUploads, hp]
  | ok j =>
    cases hn : normalizeTopLevel j with
    | error m2 => simp [fileUploads, hp, hn]
    | ok docs =>
      exfalso
      simp [processFile, hp, hn] at h

/-- Claim C5: in a multi-file upload where one file fails per-file processing
(malformed JSON — or equally an empty-object or invalid-top-level
normalization error, both of which make `processFile` produce an error
entry) and another file is well-formed, the failing file's error is caught
and recorded in its own result entry with an error message, the well-formed
file — processed *after* the failure — is still processed and reported as a
success, and the overall call returns a normal `200` response rather than
failing outright. -/
theorem C5_file_isolation (fA fB : FileInput) (upOk : Nat → Nat → Bool)
    (jA : JNative) (docsA : List JNative) (msgB : String)
    (hA : fA.parsed = .ok jA)
    (hnorm : normalizeTopLevel jA = .ok docsA)
    (hne : docsA ≠ [])
    (hup : ∀ i, upOk 1 i = true)
    (hB : processFile (upOk 0) fB = .err fB.collection msgB) :
    uploadCollectionHandler true [fB, fA] upOk =
      ⟨200, [.err fB.collection msgB,
             .ok fA.collection docsA.length docsA.length true], true, docsA.length⟩ := by
  have hcount : countSuccess (upOk 1) docsA = docsA.length := countSuccess_all _ _ hup
  have hAres : processFile (upOk 1) fA =
      .ok fA.collection docsA.length docsA.length true := by
    simp [processFile, hA, hnorm, hcount, List.length_pos, hne]
  have hBup : fileUploads fB = 0 := processFile_err_uploads _ _ _ _ hB
  have hAup : fileUploads fA = docsA.length := by
    simp [fileUploads, hA, hnorm]
  unfold uploadCollectionHandler
  simp only [Bool.true_eq_false, if_false, List.isEmpty_cons, Bool.false_eq_true,
    processFiles, processFilesGo, Nat.zero_add]
  rw [hB, hAres]
  simp [FileResult.isSuccess, hBup, hAup]

/-- Claim C5 witness: a malformed file followed by a well-formed one-element
array file — the error is recorded, the good file succeeds, status is 200. -/
theorem C5_file_isolation_witness :
    uploadCollectionHandler true
      [⟨"bad", .error "Unexpected token"⟩, ⟨"good", .ok (.arr [.num 1])⟩]
      (fun _ _ => true) =
      ⟨200, [.err "bad" "Unexpected token", .ok "good" 1 1 true], true, 1⟩ :=
  C5_file_isolation ⟨"good", .ok (.arr [.num 1])⟩ ⟨"bad", .error "Unexpected token"⟩
    (fun _ _ => true) (.arr [.num 1]) [.num 1] "Unexpected token"
    rfl rfl (List.cons_ne_nil _ _) (fun _ => rfl) rfl

/-- The credential flag stays `false` after any sequence of validation
calls none of which succeeded. -/
theorem foldl_last_false : ∀ (events : List Bool) (b : Bool), b = false →
    (∀ e ∈ events, e = false) → events.foldl (fun _ e => e) b = false := by
  intro events
  induction events with
  | nil => intro b hb _; simpa using hb
  | cons e rest ih =>
    intro b _ h
    simp only [List.foldl]
    exact ih e (h e (by simp)) (fun x hx => h x (by simp [hx]))

/-- Claim C6: invoking `upload-collection` before any successful credential
validation (the `isValidServiceAccount` flag starts `false` and every
unsuccessful validation leaves it `false`) returns a `401` authorization
failure with empty results and performs no document write requests. -/
theorem C6_credential_gate (events : List Bool) (files : List FileInput)
    (upOk : Nat → Nat → Bool) (h : ∀ e ∈ events, e = false) :
    uploadCollectionHandler (flagAfter events) files upOk = ⟨401, [], false, 0⟩ := by
  have hf : flagAfter events = false := foldl_last_false events false rfl h
  simp [uploadCollectionHandler, hf]

/-- Claim C6 witness: after one failed validation, an upload of a
well-formed file is rejected with a 401 and zero writes. -/
theorem C6_credential_gate_witness :
    uploadCollectionHandler (flagAfter [false])
      [⟨"c", .ok (.arr [.num 1])⟩] (fun _ _ => true) = ⟨401, [], false, 0⟩ :=
  C6_credential_gate [false] [⟨"c", .ok (.arr [.num 1])⟩] (fun _ _ => true)
    (by decide)

/-! ## Shape normalization and document ids -/

/-- Claim C7 counterexample: the claim says an object that is *not* an
object-of-objects becomes a single document.  The value of `{"x": null}` is
not an object, yet JavaScript's `typeof null === "object"` makes the code
take the per-key branch: it produces the single per-key document
`{_id: "x"}` (spreading `null` contributes no fields), not the single
document `{"x": null}` the claim predicts. -/
theorem C7_typeof_counterexample :
    normalizeTopLevel (.obj [("x", .null)]) = .ok [.obj [("_id", .str "x")]] ∧
    normalizeTopLevel (.obj [("x", .null)]) ≠ .ok [.obj [("x", .null)]] := by
  constructor
  · rfl
  · intro h
    rw [show normalizeTopLevel (.obj [("x", .null)]) = .ok [.obj [("_id", .str "x")]]
      from rfl] at h
    simp [perKeyDoc, setKey, spreadIntoFields] at h

/-- Claim C7 amended: a JSON array becomes one document per element; an
empty object is rejected; a non-empty object whose every value has JS
`typeof` `"object"` — i.e. is an object, an array, or `null` — becomes one
document per key (`{...data, _id: key}`); an object with at least one value
that is not `typeof`-object (string, number or boolean) becomes a single
document.  In particular `{"x": {"a":1}, "y": {"b":2}}` produces exactly
two documents whose chosen ids are `"x"` and `"y"`, each containing its
original nested fields with the `_id` key stripped before persisting. -/
theorem C7_shape_normalization :
    (∀ xs : List JNative, normalizeTopLevel (.arr xs) = .ok xs) ∧
    (normalizeTopLevel (.obj []) = .error "Empty JSON object") ∧
    (∀ kvs : List (String × JNative), kvs ≠ [] →
      (∀ kv ∈ kvs, typeofObject kv.2 = true) →
      normalizeTopLevel (.obj kvs) = .ok (kvs.map (fun kv => perKeyDoc kv.1 kv.2))) ∧
    (∀ (kvs : List (String × JNative)) (kv₀ : String × JNative), kv₀ ∈ kvs →
      typeofObject kv₀.2 = false →
      normalizeTopLevel (.obj kvs) = .ok [.obj kvs]) ∧
    (normalizeTopLevel (.obj [("x", .obj [("a", .num 1)]), ("y", .obj [("b", .num 2)])]) =
      .ok [.obj [("a", .num 1), ("_id", .str "x")],
           .obj [("b", .num 2), ("_id", .str "y")]]) ∧
    (∀ s, chooseDocId (.obj [("a", .num 1), ("_id", .str "x")]) s = .str "x") ∧
    (stripId (.obj [("a", .num 1), ("_id", .str "x")]) = .obj [("a", .num 1)]) ∧
    (∀ s, chooseDocId (.obj [("b", .num 2), ("_id", .str "y")]) s = .str "y") ∧
    (stripId (.obj [("b", .num 2), ("_id", .str "y")]) = .obj [("b", .num 2)]) := by
  refine ⟨fun xs => rfl, rfl, ?_, ?_, rfl, fun s => rfl, rfl, fun s => rfl, rfl⟩
  · intro kvs hne hall
    simp only [normalizeTopLevel]
    rw [if_neg (by simpa [List.length_eq_zero] using hne)]
    rw [if_pos (List.all_eq_true.mpr (fun kv hkv => hall kv hkv))]
  · intro kvs kv₀ hmem hfalse
    simp only [normalizeTopLevel]
    rw [if_neg (by simpa [List.length_eq_zero] using List.ne_nil_of_mem hmem)]
    rw [if_neg ?_]
    intro hall
    have := List.all_eq_true.mp hall kv₀ hmem
    rw [hfalse] at this
    exact Bool.false_ne_true this

/-- Claim C7 witness: the per-key branch evaluated at the claim's two-key
instance and the single-document branch at an object with a number value. -/
theorem C7_shape_normalization_witness :
    normalizeTopLevel (.obj [("x", .obj [("a", .num 1)]), ("y", .obj [("b", .num 2)])]) =
      .ok ([("x", JNative.obj [("a", .num 1)]), ("y", JNative.obj [("b", .num 2)])].map
        (fun kv => perKeyDoc kv.1 kv.2)) ∧
    normalizeTopLevel (.obj [("p", .num 5)]) = .ok [.obj [("p", .num 5)]] :=
  ⟨C7_shape_normalization.2.2.1 _ (List.cons_ne_nil _ _) (by decide),
   C7_shape_normalization.2.2.2.1 [("p", .num 5)] ("p", .num 5)
     (List.mem_cons_self _ _) rfl⟩

/-! ## Staged credential validation -/

/-- Claim C8 counterexample: the claim says verification stops at the first
failing stage.  With stages 1 and 2 passing and stage 3 (project metadata /
ACTIVE) failing, the code does *not* stop: the stage-4 Firestore probe
still runs (its success is recorded in `checks.firestore`) and the stage-5
key lookup still runs (`accountInfo.keyInfo` is populated), while the
overall verdict is `false` with the `firebase` error tag recorded. -/
theorem C8_stage3_no_stop_counterexample :
    (validateServiceAccountComplete ⟨true, true, false, true, true⟩).valid = false ∧
    (validateServiceAccountComplete ⟨true, true, false, true, true⟩).checks.firestore = true ∧
    (validateServiceAccountComplete ⟨true, true, false, true, true⟩).keyInfoPresent = true ∧
    (validateServiceAccountComplete ⟨true, true, false, true, true⟩).errors = ["firebase"] :=
  ⟨rfl, rfl, rfl, rfl⟩

/-- Claim C8 amended: the validator runs its stages in order and stops at
the first failure only for stage 1 (structure) and stage 2 (token
acquisition), each of which returns immediately with its stage tag; a
stage-3 (project metadata, state ACTIVE) failure is recorded with the
`firebase` tag but stages 4 and 5 still run; a stage-4 failure is recorded
with the `firestore` tag; a stage-5 failure is reflected only in a null
`keyInfo`, not an error tag.  The overall verdict is true exactly when
stages 1, 2 and 3 pass, and the stage-4/5 outcomes never affect it. -/
theorem C8_staged_validation (o : StageOutcomes) :
    ((validateServiceAccountComplete o).valid = (o.structOk && o.authOk && o.firebaseOk)) ∧
    (o.structOk = false →
      validateServiceAccountComplete o =
        ⟨false, ⟨false, false, true, false, false⟩, ["structure"], false⟩) ∧
    (o.structOk = true → o.authOk = false →
      validateServiceAccountComplete o =
        ⟨false, ⟨true, false, true, false, false⟩, ["authentication"], false⟩) ∧
    (o.structOk = true → o.authOk = true →
      (validateServiceAccountComplete o).checks.firebase = o.firebaseOk ∧
      (validateServiceAccountComplete o).checks.firestore = o.firestoreOk ∧
      (validateServiceAccountComplete o).keyInfoPresent = o.keyOk ∧
      (validateServiceAccountComplete o).errors =
        (if o.firebaseOk then [] else ["firebase"]) ++
          (if o.firestoreOk then [] else ["firestore"])) ∧
    (∀ fs ks,
      (validateServiceAccountComplete ⟨o.structOk, o.authOk, o.firebaseOk, fs, ks⟩).valid =
        (validateServiceAccountComplete o).valid) := by
  rcases o with ⟨s, a, fb, fs, k⟩
  cases s <;> cases a <;> cases fb <;> cases fs <;> cases k <;>
    exact ⟨by decide, by decide, by decide, by decide,
      fun f2 k2 => by cases f2 <;> cases k2 <;> decide⟩

/-- Claim C8 witness: a structurally invalid key makes the validator return
the early `structure`-tagged failure, and an all-passing key is valid. -/
theorem C8_staged_validation_witness :
    validateServiceAccountComplete ⟨false, true, true, true, true⟩ =
      ⟨false, ⟨false, false, true, false, false⟩, ["structure"], false⟩ ∧
    (validateServiceAccountComplete ⟨true, true, true, true, true⟩).valid =
      (true && true && true) :=
  ⟨(C8_staged_validation ⟨false, true, true, true, true⟩).2.1 rfl,
   (C8_staged_validation ⟨true, true, true, true, true⟩).1⟩

/-! ## Falsy `_id` handling -/

/-- Claim C10: for every document whose `_id` field is present but falsy
(empty string, `0`, `false`, or `null`), the upload pipeline ignores that
`_id` for id selection and uses the synthesized document id instead, and
the falsy `_id` key is *not* stripped from the persisted fields; only a
truthy `_id` is used as the document id and deleted before writing. -/
theorem C10_falsy_id (kvs : List (String × JNative)) (synthId : String) (v : JNative)
    (hv : getField (.obj kvs) "_id" = some v) :
    (jsTruthy v = false →
      chooseDocId (.obj kvs) synthId = .str synthId ∧ stripId (.obj kvs) = .obj kvs) ∧
    (jsTruthy v = true →
      chooseDocId (.obj kvs) synthId = v ∧
      stripId (.obj kvs) = .obj (kvs.filter (fun kv => ¬ kv.1 = "_id"))) := by
  constructor
  · intro ht
    constructor
    · simp [chooseDocId, hv, ht]
    · simp [stripId, hv, ht]
  · intro ht
    constructor
    · simp [chooseDocId, hv, ht]
    · simp [stripId, hv, ht]

/-- Claim C10 witness: a document with `_id: ""` keeps its `_id` field and
gets the synthesized id `doc_0`. -/
theorem C10_falsy_id_witness :
    chooseDocId (.obj [("_id", .str ""), ("a", .num 1)]) "doc_0" = .str "doc_0" ∧
    stripId (.obj [("_id", .str ""), ("a", .num 1)]) =
      .obj [("_id", .str ""), ("a", .num 1)] :=
  (C10_falsy_id [("_id", .str ""), ("a", .num 1)] "doc_0" (.str "") rfl).1 rfl

end FirestoreBE
